import Mathlib

/-!
Verification development for the incident-analyzer repository.

The analysis pipeline lives in `src/app/api/analyze/route.ts` (the `POST`
handler) and `src/app/page.tsx` (file normalization `handleAnalyze`, exports
`downloadCSV` / `downloadPDF`).  JavaScript strings are sequences of UTF-16
code units; where a claim depends only on character content we model them as
`List Char`, and where UTF-16 code-unit arithmetic matters (attachment
truncation via `String.prototype.substring`) we model them as `List Nat` of
code units.
-/

set_option autoImplicit false

namespace IncidentAnalyzer

/-! ### Code-fence stripping (route.ts lines 63-65)

`content = content.replace(/^```json\s*\n?/, '').replace(/\n?```\s*$/, '')`

The first regex matches, anchored at the start, the literal characters
"```json" followed by a greedy run of JavaScript whitespace (`\s*`), then an
optional newline (subsumed by the greedy `\s*`).  The second regex matches,
at the leftmost position from which the rest of the string is an optional
newline, the literal "```", and then whitespace up to the end of the string
(`$`); `replace` without the `g` flag removes only that leftmost match. -/

/-- JavaScript's `\s` character class. -/
def isWS (c : Char) : Bool :=
  c.val = 9 || c.val = 10 || c.val = 11 || c.val = 12 || c.val = 13 || c.val = 32 ||
  c.val = 0xa0 || c.val = 0x1680 || (0x2000 ≤ c.val && c.val ≤ 0x200a) ||
  c.val = 0x2028 || c.val = 0x2029 || c.val = 0x202f || c.val = 0x205f ||
  c.val = 0x3000 || c.val = 0xfeff

/-- The literal part of the leading-fence regex `^```json`. -/
def fenceHead : List Char := "```json".toList

/-- Three backticks, the literal of the trailing-fence regex. -/
def ticks : List Char := "```".toList

/-- `content.replace(/^```json\s*\n?/, '')`: if the string starts with
"```json", remove it together with the following whitespace run (the greedy
`\s*` already swallows any newline, so the trailing `\n?` matches empty). -/
def stripLead (s : List Char) : List Char :=
  if fenceHead.isPrefixOf s then (s.drop 7).dropWhile isWS else s

/-- Does `/\n?```\s*$/` match starting exactly at the head of `s` (the match
necessarily extending to the end of the string)? -/
def matchTrailAt (s : List Char) : Bool :=
  (ticks.isPrefixOf s && (s.drop 3).all isWS) ||
  (match s with
   | c :: rest => c = '\n' && ticks.isPrefixOf rest && (rest.drop 3).all isWS
   | [] => false)

/-- `content.replace(/\n?```\s*$/, '')`: remove the leftmost (and hence
unique) match of the trailing-fence regex, which always extends to the end
of the string. -/
def stripTrail : List Char → List Char
  | [] => []
  | c :: cs => if matchTrailAt (c :: cs) then [] else c :: stripTrail cs

/-- Both `replace` calls of route.ts line 65, in source order. -/
def cleanFence (s : List Char) : List Char := stripTrail (stripLead s)

/-- The wrapper's opening as produced by structured-output prompting. -/
def fenceJsonOpen : List Char := "```json\n".toList

/-- The wrapper's closing. -/
def fenceClose : List Char := "\n```".toList

/-! ### The POST handler (route.ts lines 25-94)

The handler body runs inside one `try`; any exception reaches the outer
`catch`, which answers 500 with the exception's message.  The external
pieces are parameters: `parseJSON` stands for the platform's `JSON.parse`
(success value abstracted as a type parameter, failure carrying the parse
error message) and `oracle` stands for the OpenAI chat-completion service,
mapping each issued call (model, system message, user message, temperature)
to the text of its response (`resp.choices[0]?.message?.content || ''`).
The returned list records every capability call, in order. -/

/-- A JavaScript value as far as the handler inspects one: either a string
with its contents, or any non-string value, of which the handler only ever
observes truthiness and string coercion (template-literal rendering). -/
inductive JVal where
  | vstr (s : List Char)
  | vother (truthy : Bool) (render : List Char)

/-- JavaScript truthiness of a `JVal` (the empty string is falsy). -/
def jsTruthy : JVal → Bool
  | .vstr s => !s.isEmpty
  | .vother t _ => t

/-- Template-literal rendering of a possibly-absent value; `undefined`
renders as the literal word "undefined". -/
def jsToStr : Option JVal → List Char
  | none => "undefined".toList
  | some (.vstr s) => s
  | some (.vother _ r) => r

/-- An element of the request's `attachments` array; each field may be
absent (`undefined`). -/
structure JAtt where
  name : Option JVal
  mime : Option JVal
  text : Option JVal

/-- The request body's `attachments` field: absent, some non-array value, or
an array of attachment objects.  The handler's guard
`attachments && Array.isArray(attachments)` skips the loop in the first two
cases. -/
inductive AttField where
  | missing
  | notArray (v : JVal)
  | array (elems : List JAtt)

/-- The request body as destructured on route.ts line 28. -/
structure ReqBody where
  ticket : Option JVal
  attachments : AttField

/-- `att.text.substring(0, 6000)` (route.ts line 42): a string yields its
first 6000 elements, anything else throws a `TypeError`. -/
def attTextStr : Option JVal → Except (List Char) (List Char)
  | some (.vstr s) => .ok s
  | some (.vother _ _) => .error ("att.text.substring is not a function".toList)
  | none => .error ("Cannot read properties of undefined".toList)

/-- The text appended to `userPrompt` for one attachment (route.ts line 43),
given the attachment's already-extracted text `s`. -/
def attBlock (a : JAtt) (s : List Char) : List Char :=
  "ATTACHMENT: ".toList ++ jsToStr a.name ++ " (".toList ++ jsToStr a.mime ++
    ")\n".toList ++ s.take 6000 ++ "\n\n".toList

/-- The attachment loop of route.ts lines 41-44: blocks are appended in
array order; the first attachment whose `text` lacks `substring` throws. -/
def buildAtts : List JAtt → Except (List Char) (List Char)
  | [] => .ok []
  | a :: rest =>
    match attTextStr a.text with
    | .error m => .error m
    | .ok s =>
      match buildAtts rest with
      | .error m => .error m
      | .ok r => .ok (attBlock a s ++ r)

/-- `userPrompt` as assembled on route.ts lines 38-45. -/
def buildUserPrompt (t : List Char) (af : AttField) : Except (List Char) (List Char) :=
  match af with
  | .array elems =>
    match buildAtts elems with
    | .error m => .error m
    | .ok r => .ok ("TICKET:\n".toList ++ t ++ "\n\n".toList ++ r)
  | _ => .ok ("TICKET:\n".toList ++ t ++ "\n\n".toList)

/-- The system prompt of route.ts lines 4-23, verbatim. -/
def SYSTEM_PROMPT : String :=
  "You are a security incident analyst.\nReturn ONLY valid JSON matching this type:\n\x7b\n  \"csf\": \x7b \"Identify\": string[], \"Protect\": string[], \"Detect\": string[], \"Respond\": string[], \"Recover\": string[] \x7d,\n  \"timeline\": \x7b \"time\"?: string, \"event\": string \x7d[],\n  \"severity\": \"Low\" | \"Medium\" | \"High\" | \"Critical\",\n  \"root_cause\": string,\n  \"impacted_assets\": string[],\n  \"mitre\"?: string[],\n  \"nist_800_53\"?: string[],\n  \"customer_safe_summary\": string,\n  \"actions\": \x7b \"title\": string, \"owner\"?: string, \"priority\"?: \"P1\"|\"P2\"|\"P3\", \"due_window\"?: string \x7d[]\n\x7d\nGuidelines:\n- Build a concise timeline (use timestamps if present).\n- State likely root cause and severity with a one-sentence justification.\n- Map to NIST CSF with 3–6 concise bullets per function, and include relevant NIST 800-53 control IDs (e.g., AC-2, IA-2, AU-6, IR-4, CP-2).\n- Include 5–10 concrete follow-up actions.\n- Audience for customer_safe_summary is non-technical.\n- Output JSON only, no prose."

/-- A chat-completion call as issued by the handler. -/
structure Call where
  model : List Char
  system : List Char
  user : List Char
  temperature : ℚ

/-- A response body: `{ error }` or `{ analysis }`. -/
inductive RBody (α : Type) where
  | errB (msg : List Char)
  | okB (analysis : α)

/-- An HTTP response of the handler. -/
structure Resp (α : Type) where
  status : Nat
  body : RBody α

/-- The primary extraction call (route.ts lines 54-61). -/
def primaryCall (userPrompt : List Char) : Call :=
  ⟨"gpt-4o-mini".toList, SYSTEM_PROMPT.toList, userPrompt, 2/10⟩

/-- The repair call's system message (route.ts line 76). -/
def fixSystem : List Char := "Fix malformed JSON. Output ONLY valid JSON.".toList

/-- The repair call (route.ts lines 72-79), whose user message embeds the
cleaned primary content. -/
def repairCall (content : List Char) : Call :=
  ⟨"gpt-4o-mini".toList, fixSystem, "Fix this JSON:\n".toList ++ content, 1/10⟩

/-- The POST handler (route.ts lines 25-94).  Returns the HTTP response
together with the list of capability calls issued, in order. -/
def POST {α : Type} (parseJSON : List Char → Except (List Char) α)
    (oracle : Call → List Char) (apiKeyPresent : Bool) (body : ReqBody) :
    Resp α × List Call :=
  match body.ticket with
  | none => (⟨400, .errB ("Invalid ticket description".toList)⟩, [])
  | some v =>
    if !(jsTruthy v) then (⟨400, .errB ("Invalid ticket description".toList)⟩, [])
    else
      match v with
      | .vother _ _ => (⟨400, .errB ("Invalid ticket description".toList)⟩, [])
      | .vstr t =>
        if 10000 < t.length then
          (⟨400, .errB ("Ticket description too long".toList)⟩, [])
        else
          match buildUserPrompt t body.attachments with
          | .error m => (⟨500, .errB m⟩, [])
          | .ok up =>
            if !apiKeyPresent then
              (⟨500, .errB ("OpenAI API key not configured".toList)⟩, [])
            else
              let c1 := primaryCall up
              let content := cleanFence (oracle c1)
              match parseJSON content with
              | .ok a => (⟨200, .okB a⟩, [c1])
              | .error _ =>
                let c2 := repairCall content
                let fixedContent := cleanFence (oracle c2)
                match parseJSON fixedContent with
                | .ok a => (⟨200, .okB a⟩, [c1, c2])
                | .error e2 => (⟨500, .errB e2⟩, [c1, c2])

/-- A `text` that is absent or not a string makes `att.text.substring` throw. -/
theorem attTextStr_error_of_bad (t : Option JVal)
    (hbad : t = none ∨ ∃ b r, t = some (.vother b r)) :
    ∃ m, attTextStr t = .error m := by
  rcases hbad with h | ⟨b, r, h⟩ <;> subst h <;> exact ⟨_, rfl⟩

/-- If some element of the attachments array has a `text` that is absent or
not a string, the attachment loop throws. -/
theorem buildAtts_error_of_bad (elems : List JAtt) (bad : JAtt) (hmem : bad ∈ elems)
    (hbad : bad.text = none ∨ ∃ b r, bad.text = some (.vother b r)) :
    ∃ m, buildAtts elems = .error m := by
  induction elems with
  | nil => cases hmem
  | cons a rest ih =>
    rcases List.mem_cons.mp hmem with h | h
    · subst h
      obtain ⟨m, hm⟩ := attTextStr_error_of_bad bad.text hbad
      exact ⟨m, by simp [buildAtts, hm]⟩
    · cases hta : attTextStr a.text with
      | error m => exact ⟨m, by simp [buildAtts, hta]⟩
      | ok s =>
        obtain ⟨m, hm⟩ := ih h
        exact ⟨m, by simp [buildAtts, hta, hm]⟩

/-- A concrete `JSON.parse` that always fails, for witnesses. -/
def wParseFail : List Char → Except (List Char) Unit :=
  fun _ => .error ("Unexpected token".toList)

/-- A concrete `JSON.parse` that always succeeds, for witnesses. -/
def wParseOk : List Char → Except (List Char) Unit := fun _ => .ok ()

/-- A concrete extraction capability, for witnesses. -/
def wOracle : Call → List Char := fun _ => "oops".toList

/-- Claim C2: for every request whose `ticket` is missing, not a string, or
longer than 10,000 characters, the endpoint returns a 400 response with an
error message before invoking any extraction call. -/
theorem c2_ticket_validation {α : Type} (parseJSON : List Char → Except (List Char) α)
    (oracle : Call → List Char) (key : Bool) (body : ReqBody)
    (h : body.ticket = none ∨ (∃ b r, body.ticket = some (.vother b r)) ∨
         ∃ s, body.ticket = some (.vstr s) ∧ 10000 < s.length) :
    (POST parseJSON oracle key body).1.status = 400 ∧
    (∃ m, (POST parseJSON oracle key body).1.body = .errB m) ∧
    (POST parseJSON oracle key body).2 = [] := by
  rcases h with h | ⟨b, r, h⟩ | ⟨s, h, hs⟩
  · simp [POST, h]
  · cases b <;> simp [POST, h, jsTruthy]
  · have hne : s.isEmpty = false := by
      cases s with
      | nil => simp at hs
      | cons c cs => rfl
    simp [POST, h, jsTruthy, hne, hs]

/-- Witness for C2 at a concrete request with a missing ticket. -/
theorem c2_ticket_validation_witness :
    (POST wParseOk wOracle true ⟨none, .missing⟩).1.status = 400 ∧
    (∃ m, (POST wParseOk wOracle true ⟨none, .missing⟩).1.body = .errB m) ∧
    (POST wParseOk wOracle true ⟨none, .missing⟩).2 = [] :=
  c2_ticket_validation wParseOk wOracle true ⟨none, .missing⟩ (Or.inl rfl)

/-- Claim C3: a primary extraction response that parses after code-fence
stripping makes the run return the parsed payload unchanged with status 200,
with exactly one extraction call issued and no repair call. -/
theorem c3_primary_success_no_repair {α : Type}
    (parseJSON : List Char → Except (List Char) α) (oracle : Call → List Char)
    (body : ReqBody) (t up : List Char) (a : α)
    (ht : body.ticket = some (.vstr t)) (hne : t ≠ []) (hlen : t.length ≤ 10000)
    (hup : buildUserPrompt t body.attachments = .ok up)
    (hok : parseJSON (cleanFence (oracle (primaryCall up))) = .ok a) :
    POST parseJSON oracle true body = (⟨200, .okB a⟩, [primaryCall up]) := by
  have hempty : t.isEmpty = false := by
    cases t with
    | nil => exact absurd rfl hne
    | cons c cs => rfl
  have hnlt : ¬ (10000 < t.length) := by omega
  simp [POST, ht, jsTruthy, hempty, hnlt, hup, hok]

/-- Witness for C3 at a concrete request and a parsing response. -/
theorem c3_primary_success_no_repair_witness :
    POST wParseOk wOracle true ⟨some (.vstr "hi".toList), .missing⟩ =
      (⟨200, .okB ()⟩, [primaryCall ("TICKET:\nhi\n\n".toList)]) :=
  c3_primary_success_no_repair wParseOk wOracle _ ("hi".toList)
    ("TICKET:\nhi\n\n".toList) () rfl (by decide) (by decide) rfl rfl

/-- Claim C1: when the cleaned primary response fails to parse, exactly one
repair call is issued — to the same model, with the previously cleaned
unparseable text embedded in its user message — the repair response is
code-fence-stripped the same way, a repair parse failure terminates the run
with a 500 response carrying the parse error message, and in every outcome
exactly two capability calls are made. -/
theorem c1_repair_single_attempt {α : Type}
    (parseJSON : List Char → Except (List Char) α) (oracle : Call → List Char)
    (body : ReqBody) (t up e : List Char)
    (ht : body.ticket = some (.vstr t)) (hne : t ≠ []) (hlen : t.length ≤ 10000)
    (hup : buildUserPrompt t body.attachments = .ok up)
    (herr : parseJSON (cleanFence (oracle (primaryCall up))) = .error e) :
    (POST parseJSON oracle true body).2 =
      [primaryCall up, repairCall (cleanFence (oracle (primaryCall up)))] ∧
    (repairCall (cleanFence (oracle (primaryCall up)))).model = (primaryCall up).model ∧
    (repairCall (cleanFence (oracle (primaryCall up)))).user =
      "Fix this JSON:\n".toList ++ cleanFence (oracle (primaryCall up)) ∧
    (∀ e2, parseJSON (cleanFence (oracle (repairCall (cleanFence (oracle (primaryCall up)))))) =
        .error e2 →
      POST parseJSON oracle true body =
        (⟨500, .errB e2⟩,
         [primaryCall up, repairCall (cleanFence (oracle (primaryCall up)))])) ∧
    (∀ a, parseJSON (cleanFence (oracle (repairCall (cleanFence (oracle (primaryCall up)))))) =
        .ok a →
      POST parseJSON oracle true body =
        (⟨200, .okB a⟩,
         [primaryCall up, repairCall (cleanFence (oracle (primaryCall up)))])) := by
  have hempty : t.isEmpty = false := by
    cases t with
    | nil => exact absurd rfl hne
    | cons c cs => rfl
  have hnlt : ¬ (10000 < t.length) := by omega
  refine ⟨?_, rfl, rfl, ?_, ?_⟩
  · cases h2 : parseJSON (cleanFence (oracle (repairCall (cleanFence (oracle (primaryCall up)))))) <;>
      simp [POST, ht, jsTruthy, hempty, hnlt, hup, herr, h2]
  · intro e2 h2
    simp [POST, ht, jsTruthy, hempty, hnlt, hup, herr, h2]
  · intro a h2
    simp [POST, ht, jsTruthy, hempty, hnlt, hup, herr, h2]

/-- Witness for C1 at a concrete request whose primary and repair responses
both fail to parse: the run answers 500 with the parse error message after
exactly the two calls. -/
theorem c1_repair_single_attempt_witness :
    POST wParseFail wOracle true ⟨some (.vstr "hi".toList), .missing⟩ =
      (⟨500, .errB ("Unexpected token".toList)⟩,
       [primaryCall ("TICKET:\nhi\n\n".toList),
        repairCall (cleanFence ("oops".toList))]) :=
  (c1_repair_single_attempt wParseFail wOracle
      ⟨some (.vstr "hi".toList), .missing⟩ ("hi".toList)
      ("TICKET:\nhi\n\n".toList) ("Unexpected token".toList)
      rfl (by decide) (by decide) rfl rfl).2.2.2.1
    ("Unexpected token".toList) rfl

/-- Claim C10: a valid `ticket` together with an attachments array holding an
element whose `text` is missing or not a string is not answered by input
validation: the thrown `TypeError` reaches the outer catch and surfaces as a
500 `{ error }` response, with no extraction call made. -/
theorem c10_bad_attachment_text {α : Type}
    (parseJSON : List Char → Except (List Char) α) (oracle : Call → List Char)
    (key : Bool) (body : ReqBody) (t : List Char) (elems : List JAtt) (bad : JAtt)
    (ht : body.ticket = some (.vstr t)) (hne : t ≠ []) (hlen : t.length ≤ 10000)
    (hatt : body.attachments = .array elems) (hmem : bad ∈ elems)
    (hbad : bad.text = none ∨ ∃ b r, bad.text = some (.vother b r)) :
    (POST parseJSON oracle key body).1.status = 500 ∧
    (POST parseJSON oracle key body).1.status ≠ 400 ∧
    (∃ m, (POST parseJSON oracle key body).1.body = .errB m) ∧
    (POST parseJSON oracle key body).2 = [] := by
  have hempty : t.isEmpty = false := by
    cases t with
    | nil => exact absurd rfl hne
    | cons c cs => rfl
  have hnlt : ¬ (10000 < t.length) := by omega
  obtain ⟨m, hm⟩ := buildAtts_error_of_bad elems bad hmem hbad
  have hup : buildUserPrompt t body.attachments = .error m := by
    simp [buildUserPrompt, hatt, hm]
  simp [POST, ht, jsTruthy, hempty, hnlt, hup]

/-- Witness for C10 at a concrete request with one attachment lacking `text`. -/
theorem c10_bad_attachment_text_witness :
    (POST wParseOk wOracle true
        ⟨some (.vstr "hi".toList), .array [⟨none, none, none⟩]⟩).1.status = 500 ∧
    (POST wParseOk wOracle true
        ⟨some (.vstr "hi".toList), .array [⟨none, none, none⟩]⟩).1.status ≠ 400 ∧
    (∃ m, (POST wParseOk wOracle true
        ⟨some (.vstr "hi".toList), .array [⟨none, none, none⟩]⟩).1.body = .errB m) ∧
    (POST wParseOk wOracle true
        ⟨some (.vstr "hi".toList), .array [⟨none, none, none⟩]⟩).2 = [] :=
  c10_bad_attachment_text wParseOk wOracle true _ ("hi".toList)
    [⟨none, none, none⟩] ⟨none, none, none⟩ rfl (by decide) (by decide) rfl
    (List.mem_singleton.mpr rfl) (Or.inl rfl)

/-! ### Claim C4: fence stripping -/

/-- The closing fence contains a backtick, hence is not all whitespace. -/
theorem fenceClose_all_isWS : fenceClose.all isWS = false := by decide

/-- The trailing-fence regex never matches strictly inside text that still
has the closing fence after it: the backticks of the closing fence are not
whitespace, so the `\s*$` part cannot succeed. -/
theorem matchTrailAt_cons_close (c : Char) (p : List Char) :
    matchTrailAt (c :: (p ++ fenceClose)) = false := by
  rcases p with _ | ⟨a, _ | ⟨b, _ | ⟨d, t⟩⟩⟩ <;>
    simp [matchTrailAt, ticks, fenceClose, List.isPrefixOf, List.all_append,
      fenceClose_all_isWS, isWS]

/-- Removing the trailing fence from `p ++ "\n``` "` gives back `p`: the
leftmost match of the trailing-fence regex is the final closing fence. -/
theorem stripTrail_append_close (p : List Char) :
    stripTrail (p ++ fenceClose) = p := by
  induction p with
  | nil => decide
  | cons c p' ih =>
    rw [List.cons_append, stripTrail, matchTrailAt_cons_close]
    simp [ih]

/-- Claim C4 (amended): an extraction response wrapped as
"```json\n" ++ payload ++ "\n```" is stripped to exactly the unwrapped
payload, provided the payload does not begin with whitespace (the regex's
greedy `\s*` would also swallow such leading whitespace); a leading fence
not tagged exactly `json` is, however, not stripped (see the
counterexample). -/
theorem c4_json_fence_roundtrip (p : List Char)
    (hp : isWS (p.headD 'x') = false) :
    cleanFence (fenceJsonOpen ++ p ++ fenceClose) = p := by
  cases p with
  | nil => decide
  | cons c p' =>
    have hc : isWS c = false := hp
    have h1 : stripLead (fenceJsonOpen ++ (c :: p') ++ fenceClose) =
        (c :: p') ++ fenceClose := by
      have hsplit : fenceJsonOpen ++ (c :: p') ++ fenceClose =
          fenceHead ++ ('\n' :: ((c :: p') ++ fenceClose)) := by
        simp [fenceJsonOpen, fenceHead, fenceClose]
      rw [stripLead, hsplit]
      have hpre : fenceHead.isPrefixOf
          (fenceHead ++ ('\n' :: ((c :: p') ++ fenceClose))) = true := by
        rw [List.isPrefixOf_iff_prefix]
        exact List.prefix_append _ _
      rw [if_pos hpre]
      have h7 : (7 : Nat) = fenceHead.length := by decide
      rw [h7, List.drop_left]
      have hnl : isWS '\n' = true := by decide
      simp [List.dropWhile_cons, hnl, hc]
    rw [cleanFence, h1, stripTrail_append_close]

/-- Witness for C4 (amended) at the concrete payload `{"a":1}`. -/
theorem c4_json_fence_roundtrip_witness :
    cleanFence (fenceJsonOpen ++ "\x7b\"a\":1\x7d".toList ++ fenceClose) =
      "\x7b\"a\":1\x7d".toList :=
  c4_json_fence_roundtrip ("\x7b\"a\":1\x7d".toList) (by decide)

/-- Counterexample to C4 as stated: the response `` ```\n{}\n``` `` is
wrapped in a leading/trailing code fence, but the leading regex demands the
literal tag `json`, so post-processing leaves the leading fence in place and
the parsed content is not the unwrapped payload `{}`. -/
theorem c4_plain_fence_not_stripped :
    cleanFence ("```\n\x7b\x7d\n```".toList) = "```\n\x7b\x7d".toList ∧
    cleanFence ("```\n\x7b\x7d\n```".toList) ≠ "\x7b\x7d".toList := by
  constructor <;> decide

/-! ### Claims C5/C6: attachment truncation

`att.text.substring(0, 6000)` (route.ts line 42) operates on the UTF-16
code units of a JavaScript string, so here attachment texts are modelled as
lists of code units (`List Nat`). -/

/-- The per-attachment cap of route.ts line 42. -/
def ATTACHMENT_MAX : Nat := 6000

/-- `s.substring(0, n)` on a JavaScript string: its first `n` UTF-16 code
units (all of `s` when shorter). -/
def jsSubstring0 (s : List Nat) (n : Nat) : List Nat := s.take n

/-- An attachment of the request body, fields as UTF-16 code-unit lists. -/
structure AttachmentU where
  name : List Nat
  mime : List Nat
  text : List Nat

/-- Code units of an ASCII literal appearing in the handler. -/
def asciiU (s : String) : List Nat := s.toList.map Char.toNat

/-- `truncatedText` of route.ts line 42. -/
def truncAtt (a : AttachmentU) : List Nat := jsSubstring0 a.text ATTACHMENT_MAX

/-- The `ATTACHMENT: name (mime)` header line of route.ts line 43. -/
def attHeaderU (a : AttachmentU) : List Nat :=
  asciiU "ATTACHMENT: " ++ a.name ++ asciiU " (" ++ a.mime ++ asciiU ")\n"

/-- One attachment's full contribution to `userPrompt` (route.ts line 43). -/
def attBlockU (a : AttachmentU) : List Nat :=
  attHeaderU a ++ truncAtt a ++ asciiU "\n\n"

/-- `userPrompt` of route.ts lines 38-45 at code-unit granularity, for a
request whose attachments array is present and whose texts are strings. -/
def buildUserPromptU (ticket : List Nat) (atts : List AttachmentU) : List Nat :=
  asciiU "TICKET:\n" ++ ticket ++ asciiU "\n\n" ++ (atts.map attBlockU).flatten

/-- Claim C5: each attachment's contribution to the prompt carries exactly
the first 6,000 code units of its text (all of it when not longer), the cap
is applied to each attachment independently of the others, and the capped
block appears verbatim in the assembled prompt. -/
theorem c5_attachment_truncation (ticket : List Nat) (atts : List AttachmentU)
    (a : AttachmentU) (ha : a ∈ atts) :
    truncAtt a <+: a.text ∧
    (truncAtt a).length = min a.text.length ATTACHMENT_MAX ∧
    (a.text.length ≤ ATTACHMENT_MAX → truncAtt a = a.text) ∧
    (ATTACHMENT_MAX < a.text.length → (truncAtt a).length = ATTACHMENT_MAX) ∧
    ∃ pre post, buildUserPromptU ticket atts =
      pre ++ (attHeaderU a ++ truncAtt a ++ asciiU "\n\n") ++ post := by
  refine ⟨List.take_prefix _ _, ?_, ?_, ?_, ?_⟩
  · simp [truncAtt, jsSubstring0, Nat.min_comm]
  · intro h
    simp [truncAtt, jsSubstring0, List.take_of_length_le h]
  · intro h
    simp [truncAtt, jsSubstring0]
    omega
  · obtain ⟨s, t, rfl⟩ := List.append_of_mem ha
    refine ⟨asciiU "TICKET:\n" ++ ticket ++ asciiU "\n\n" ++ (s.map attBlockU).flatten,
      (t.map attBlockU).flatten, ?_⟩
    simp [buildUserPromptU, attBlockU, List.append_assoc]

/-- A concrete attachment for the C5 witness. -/
def c5att : AttachmentU := ⟨asciiU "x.log", asciiU "text/plain", asciiU "abc"⟩

/-- Witness for C5 at a concrete one-attachment request. -/
theorem c5_attachment_truncation_witness :
    truncAtt c5att <+: c5att.text ∧
    (truncAtt c5att).length = min c5att.text.length ATTACHMENT_MAX ∧
    (c5att.text.length ≤ ATTACHMENT_MAX → truncAtt c5att = c5att.text) ∧
    (ATTACHMENT_MAX < c5att.text.length → (truncAtt c5att).length = ATTACHMENT_MAX) ∧
    ∃ pre post, buildUserPromptU [] [c5att] =
      pre ++ (attHeaderU c5att ++ truncAtt c5att ++ asciiU "\n\n") ++ post :=
  c5_attachment_truncation [] [c5att] c5att (List.mem_singleton.mpr rfl)

/-- A high surrogate, the leading half of an astral-plane pair. -/
def isHighSurrogate (u : Nat) : Bool := decide (0xD800 ≤ u) && decide (u ≤ 0xDBFF)

/-- A low surrogate, the trailing half of an astral-plane pair. -/
def isLowSurrogate (u : Nat) : Bool := decide (0xDC00 ≤ u) && decide (u ≤ 0xDFFF)

/-- A UTF-16 code-unit sequence is well formed when every high surrogate is
immediately followed by a low surrogate and no low surrogate appears bare. -/
def wellFormedUTF16 : List Nat → Bool
  | [] => true
  | u :: rest =>
    if isHighSurrogate u then
      match rest with
      | [] => false
      | v :: rest2 => isLowSurrogate v && wellFormedUTF16 rest2
    else
      !(isLowSurrogate u) && wellFormedUTF16 rest

/-- Prepending a non-surrogate unit preserves well-formedness. -/
theorem wellFormedUTF16_cons_bmp (u : Nat) (l : List Nat)
    (h1 : isHighSurrogate u = false) (h2 : isLowSurrogate u = false) :
    wellFormedUTF16 (u :: l) = wellFormedUTF16 l := by
  cases l with
  | nil => simp [wellFormedUTF16, h1, h2]
  | cons v l2 => simp [wellFormedUTF16, h1, h2]

/-- A run of the unit 97 (the letter a) in front changes nothing. -/
theorem wellFormedUTF16_replicate_append (n : Nat) (l : List Nat) :
    wellFormedUTF16 (List.replicate n 97 ++ l) = wellFormedUTF16 l := by
  induction n with
  | zero => simp
  | succ k ih =>
    rw [List.replicate_succ, List.cons_append,
      wellFormedUTF16_cons_bmp 97 _ (by decide) (by decide), ih]

/-- A bare low surrogate at the head makes the sequence ill formed. -/
theorem wellFormedUTF16_cons_low (u : Nat) (l : List Nat)
    (h1 : isHighSurrogate u = false) (h2 : isLowSurrogate u = true) :
    wellFormedUTF16 (u :: l) = false := by
  cases l with
  | nil => simp [wellFormedUTF16, h1, h2]
  | cons v l2 => simp [wellFormedUTF16, h1, h2]

/-- Taking a prefix of a well-formed sequence stays well formed as long as
the first dropped unit is not a low surrogate (the cut does not fall inside
a surrogate pair). -/
theorem wellFormedUTF16_take_aux :
    ∀ (k : Nat) (t : List Nat), t.length ≤ k → wellFormedUTF16 t = true →
      ∀ n, isLowSurrogate (t.getD n 0) = false →
        wellFormedUTF16 (t.take n) = true := by
  intro k
  induction k with
  | zero =>
    intro t ht _ n _
    have h0 : t = [] := List.eq_nil_of_length_eq_zero (Nat.le_zero.mp ht)
    subst h0
    simp [wellFormedUTF16]
  | succ k ih =>
    intro t ht hwf n hlow
    match t with
    | [] => simp [wellFormedUTF16]
    | u :: rest =>
      by_cases hu : isHighSurrogate u = true
      · match rest with
        | [] => simp [wellFormedUTF16, hu] at hwf
        | v :: rest2 =>
          have hv : isLowSurrogate v = true ∧ wellFormedUTF16 rest2 = true := by
            simpa [wellFormedUTF16, hu] using hwf
          match n with
          | 0 => rw [List.take_zero]; rfl
          | 1 =>
            exfalso
            have hlow1 : isLowSurrogate v = false := by
              simpa [List.getD_cons_succ] using hlow
            rw [hv.1] at hlow1
            cases hlow1
          | (m+2) =>
            have hr2len : rest2.length ≤ k := by
              simp only [List.length_cons] at ht
              omega
            have hlow2 : isLowSurrogate (rest2.getD m 0) = false := by
              simpa [List.getD_cons_succ] using hlow
            have hrec := ih rest2 hr2len hv.2 m hlow2
            simp [List.take_succ_cons, wellFormedUTF16, hu, hv.1, hrec]
      · by_cases hl : isLowSurrogate u = true
        · have hu0 : isHighSurrogate u = false := by simpa using hu
          rw [wellFormedUTF16_cons_low u rest hu0 hl] at hwf
          cases hwf
        · have hu' : isHighSurrogate u = false := by simpa using hu
          have hl' : isLowSurrogate u = false := by simpa using hl
          have hwf' : wellFormedUTF16 rest = true := by
            rw [wellFormedUTF16_cons_bmp u rest hu' hl'] at hwf
            exact hwf
          match n with
          | 0 => rw [List.take_zero]; rfl
          | (m+1) =>
            have hrlen : rest.length ≤ k := by
              simp only [List.length_cons] at ht
              omega
            have hlow2 : isLowSurrogate (rest.getD m 0) = false := by
              simpa [List.getD_cons_succ] using hlow
            have hrec := ih rest hrlen hwf' m hlow2
            rw [List.take_succ_cons, wellFormedUTF16_cons_bmp u _ hu' hl']
            exact hrec

/-- Claim C6 (amended): the truncation is a plain code-unit prefix, and it
preserves well-formedness exactly when the cut does not fall inside a
surrogate pair — that is, whenever the first dropped unit (index 6,000) is
not a low surrogate.  When it is, the pair is split (see the
counterexample). -/
theorem c6_truncation_wellformed_amended (a : AttachmentU)
    (hwf : wellFormedUTF16 a.text = true)
    (hb : isLowSurrogate (a.text.getD ATTACHMENT_MAX 0) = false) :
    wellFormedUTF16 (truncAtt a) = true :=
  wellFormedUTF16_take_aux a.text.length a.text (Nat.le_refl _) hwf ATTACHMENT_MAX hb

/-- Witness for C6 (amended) at a concrete short BMP-only attachment. -/
theorem c6_truncation_wellformed_amended_witness :
    wellFormedUTF16 (truncAtt ⟨[], [], [104, 105]⟩) = true :=
  c6_truncation_wellformed_amended ⟨[], [], [104, 105]⟩ (by decide) (by decide)

/-- A well-formed attachment text of 6,001 code units whose units 5,999 and
6,000 form the surrogate pair of U+1F600. -/
def c6input : List Nat := List.replicate 5999 97 ++ [55357, 56832]

/-- Counterexample to C6 as stated: truncating this well-formed text to
6,000 code units cuts the surrogate pair in half, leaving a trailing
unpaired high surrogate — the truncated text is not a well-formed string. -/
theorem c6_surrogate_split_counterexample :
    wellFormedUTF16 c6input = true ∧
    wellFormedUTF16 (truncAtt ⟨[], [], c6input⟩) = false := by
  constructor
  · rw [c6input, wellFormedUTF16_replicate_append]
    decide
  · have hlen : (List.replicate 5999 (97 : Nat)).length ≤ 6000 := by
      rw [List.length_replicate]
      omega
    have h1 : truncAtt ⟨[], [], c6input⟩ = List.replicate 5999 97 ++ [55357] := by
      show (c6input).take 6000 = _
      rw [c6input, List.take_append_eq_append_take, List.take_of_length_le hlen,
        List.length_replicate]
      congr 1
    rw [h1, wellFormedUTF16_replicate_append]
    decide

/-! ### Claim C7: PDF export pagination (page.tsx, `downloadPDF`)

The pagination arithmetic of the export: A4 portrait in millimetres with a
fixed 15 mm margin; the image is drawn once per page at a vertical position,
and after the first page the loop `while (heightLeft >= 0)` adds a page and
redraws the image offset upward.  Heights are modelled as rationals. -/

/-- The 15 mm margin. -/
def pdfMargin : ℚ := 15

/-- `imgWidth = 210 - margin * 2`. -/
def pdfImgWidth : ℚ := 210 - pdfMargin * 2

/-- `pageHeight = 297 - margin * 2`, the usable height of one page. -/
def pdfPageHeight : ℚ := 297 - pdfMargin * 2

/-- `imgHeight = canvas.height * imgWidth / canvas.width`. -/
def scaledImgHeight (canvasW canvasH : ℚ) : ℚ := canvasH * pdfImgWidth / canvasW

theorem pdfPageHeight_eq : pdfPageHeight = 267 := by
  norm_num [pdfPageHeight, pdfMargin]

theorem pdfPageHeight_pos : (0 : ℚ) < pdfPageHeight := by
  rw [pdfPageHeight_eq]
  norm_num

/-- Dividing out one page height shifts the floor down by one. -/
theorem floor_div_page_sub (x : ℚ) :
    ⌊(x - pdfPageHeight) / pdfPageHeight⌋ = ⌊x / pdfPageHeight⌋ - 1 := by
  rw [pdfPageHeight_eq, sub_div, div_self (by norm_num : (267:ℚ) ≠ 0),
    Int.floor_sub_one]

/-- The `while (heightLeft >= 0)` loop: the list of vertical positions of
the additional pages, given the image height and the running `heightLeft`
(`position = margin - (imgHeight - heightLeft)` on each iteration, then
`heightLeft -= pageHeight`). -/
def pdfExtra (imgH heightLeft : ℚ) : List ℚ :=
  if h : 0 ≤ heightLeft then
    (pdfMargin - (imgH - heightLeft)) :: pdfExtra imgH (heightLeft - pdfPageHeight)
  else []
termination_by (⌊heightLeft / pdfPageHeight⌋ + 1).toNat
decreasing_by
  have hnn : 0 ≤ ⌊heightLeft / pdfPageHeight⌋ :=
    Int.floor_nonneg.mpr (div_nonneg h pdfPageHeight_pos.le)
  rw [floor_div_page_sub]
  omega

/-- The vertical position of the image on every emitted page, in order: the
first page draws at `margin`, then one entry per loop iteration. -/
def pdfPositions (imgH : ℚ) : List ℚ :=
  pdfMargin :: pdfExtra imgH (imgH - pdfPageHeight)

/-- Closed form of the loop: it runs `(⌊heightLeft/pageHeight⌋ + 1)⁺` times,
the i-th iteration drawing at `margin - (imgH - (heightLeft - pageHeight·i))`. -/
theorem pdfExtra_eq_map (n : Nat) :
    ∀ (imgH hl : ℚ), (⌊hl / pdfPageHeight⌋ + 1).toNat = n →
      pdfExtra imgH hl =
        (List.range n).map (fun i : Nat => pdfMargin - (imgH - (hl - pdfPageHeight * (i : ℚ)))) := by
  induction n with
  | zero =>
    intro imgH hl h
    have hneg : ¬ (0 ≤ hl) := by
      intro hpos
      have h1 : 0 ≤ ⌊hl / pdfPageHeight⌋ :=
        Int.floor_nonneg.mpr (div_nonneg hpos pdfPageHeight_pos.le)
      omega
    rw [pdfExtra, dif_neg hneg]
    simp
  | succ k ih =>
    intro imgH hl h
    have hfl : ⌊hl / pdfPageHeight⌋ = k := by omega
    have hpos : 0 ≤ hl := by
      by_contra hneg
      push_neg at hneg
      have h1 : hl / pdfPageHeight < 0 := div_neg_of_neg_of_pos hneg pdfPageHeight_pos
      have h2 : ⌊hl / pdfPageHeight⌋ < 0 := Int.floor_lt.mpr (by simpa using h1)
      omega
    have harg : (⌊(hl - pdfPageHeight) / pdfPageHeight⌋ + 1).toNat = k := by
      rw [floor_div_page_sub]
      omega
    rw [pdfExtra, dif_pos hpos, ih imgH (hl - pdfPageHeight) harg,
      List.range_succ_eq_map]
    simp only [List.map_cons, List.map_map]
    congr 1
    · push_cast
      ring
    · apply List.map_congr_left
      intro i hi
      simp only [Function.comp]
      push_cast
      ring

/-- Claim C7 (amended): for content of scaled height `H ≥ 0` the export
emits `⌊H/pageHeight⌋ + 1` pages, page `k` (zero-based) drawing the image at
vertical position `margin − pageHeight·k`, so consecutive pages show
consecutive strips of the image with nothing duplicated or skipped.  In
particular a height that is an exact positive multiple `m·pageHeight` yields
`m + 1` pages — one trailing page beyond the `m` pages the claim predicts —
and the split happens already when the height equals (not only when it
exceeds) one page's usable height. -/
theorem c7_pagination_amended (H : ℚ) (hH : 0 ≤ H) :
    pdfPositions H =
      (List.range ((⌊H / pdfPageHeight⌋).toNat + 1)).map
        (fun k : Nat => pdfMargin - pdfPageHeight * (k : ℚ)) := by
  have hfl0 : 0 ≤ ⌊H / pdfPageHeight⌋ :=
    Int.floor_nonneg.mpr (div_nonneg hH pdfPageHeight_pos.le)
  have harg : (⌊(H - pdfPageHeight) / pdfPageHeight⌋ + 1).toNat =
      (⌊H / pdfPageHeight⌋).toNat := by
    rw [floor_div_page_sub]
    omega
  rw [pdfPositions, pdfExtra_eq_map _ H (H - pdfPageHeight) harg,
    List.range_succ_eq_map]
  simp only [List.map_cons, List.map_map]
  congr 1
  · push_cast
    ring
  · apply List.map_congr_left
    intro i hi
    simp only [Function.comp]
    push_cast
    ring

/-- Witness for C7 (amended) at the concrete height 534 = 2 pages exactly. -/
theorem c7_pagination_amended_witness :
    pdfPositions 534 =
      (List.range ((⌊(534 : ℚ) / pdfPageHeight⌋).toNat + 1)).map
        (fun k : Nat => pdfMargin - pdfPageHeight * (k : ℚ)) :=
  c7_pagination_amended 534 (by norm_num)

/-- Counterexample to C7 as stated: content whose scaled height is exactly
one page's usable height (one whole page) is emitted on two pages, not one —
the loop condition `heightLeft >= 0` runs once more at the exact boundary,
producing a trailing extra page. -/
theorem c7_exact_multiple_counterexample :
    (pdfPositions (pdfPageHeight * 1)).length = 2 ∧
    (pdfPositions (pdfPageHeight * 1)).length ≠ 1 := by
  have h0 : (⌊(pdfPageHeight * 1 - pdfPageHeight) / pdfPageHeight⌋ + 1).toNat = 1 := by
    rw [floor_div_page_sub]
    have : ⌊pdfPageHeight * 1 / pdfPageHeight⌋ = 1 := by
      rw [mul_one, div_self (ne_of_gt pdfPageHeight_pos)]
      exact Int.floor_one
    omega
  have h1 := pdfExtra_eq_map 1 (pdfPageHeight * 1) (pdfPageHeight * 1 - pdfPageHeight) h0
  rw [pdfPositions, h1]
  constructor
  · simp
  · simp

/-! ### Claim C8: delimited-text export (page.tsx, `downloadCSV`)

`[[header], ...actions.map(a => [a.title, a.owner || '', a.priority || '',
a.due_window || ''])].map(row => row.map(cell => quoted).join(',')).join('\n')`.
`x || ''` on a string-or-undefined agrees with `Option.getD ""` because the
only falsy string is the empty one, on which both yield the empty string. -/

/-- An element of the report's `actions` array. -/
structure ActionR where
  title : String
  owner : Option String
  priority : Option String
  due_window : Option String

/-- The template `"${cell}"`: the cell wrapped in double quotes. -/
def quoteCell (s : String) : String := "\"" ++ s ++ "\""

/-- `row.map(cell => `"${cell}"`).join(',')`. -/
def csvJoinRow (cells : List String) : String :=
  String.intercalate "," (cells.map quoteCell)

/-- The header row's cells. -/
def csvHeaderCells : List String := ["Title", "Owner", "Priority", "Due Window"]

/-- One action's row cells, absent optional fields rendered empty. -/
def actionCells (a : ActionR) : List String :=
  [a.title, a.owner.getD "", a.priority.getD "", a.due_window.getD ""]

/-- The full text of the delimited export built by `downloadCSV`. -/
def downloadCSV_text (actions : List ActionR) : String :=
  String.intercalate "\n" ((csvHeaderCells :: actions.map actionCells).map csvJoinRow)

/-- Claim C8: the export is the quoted header row followed by exactly one
quoted row per action, in order; a report with zero actions yields only the
header row; absent optional fields render as empty strings, never as the
word "undefined". -/
theorem c8_csv_export (acts : List ActionR) :
    downloadCSV_text acts =
      String.intercalate "\n"
        (csvJoinRow csvHeaderCells :: acts.map (fun a => csvJoinRow (actionCells a))) ∧
    (csvHeaderCells :: acts.map actionCells).length = acts.length + 1 ∧
    downloadCSV_text [] = "\"Title\",\"Owner\",\"Priority\",\"Due Window\"" ∧
    (∀ a : ActionR, a.owner = none → (actionCells a).getD 1 "undefined" = "") ∧
    (∀ t : String, csvJoinRow (actionCells ⟨t, none, none, none⟩) =
      quoteCell t ++ ",\"\",\"\",\"\"") := by
  refine ⟨?_, ?_, ?_, ?_, ?_⟩
  · simp [downloadCSV_text, Function.comp_def]
  · simp
  · rfl
  · intro a ha
    simp [actionCells, ha]
  · intro t
    simp [csvJoinRow, actionCells, quoteCell, String.intercalate,
      String.intercalate.go, String.append_assoc]

/-- Witness for C8 at a concrete action with all optional fields absent. -/
theorem c8_csv_export_witness :
    csvJoinRow (actionCells ⟨"Reset passwords", none, none, none⟩) =
      quoteCell "Reset passwords" ++ ",\"\",\"\",\"\"" :=
  (c8_csv_export []).2.2.2.2 "Reset passwords"

/-! ### Claim C9: upload normalization (page.tsx, `handleAnalyze`)

Each uploaded file is mapped to an attachment fragment or to `null`
(unsupported type), and the `null`s are filtered out; `Promise.all`
preserves array order.  The docx/pdf/plain-text extractors are external
async collaborators (mammoth, pdfjs, `file.text()`), passed as parameters;
their own failure handling returns placeholder text, so they are total. -/

/-- An uploaded `File` as far as the dispatch inspects it. -/
structure JFile where
  name : List Char
  type : List Char

/-- A normalized attachment fragment `{ name, mime, text }`. -/
structure FragmentC where
  name : List Char
  mime : List Char
  text : List Char

/-- `name.endsWith(suffix)`. -/
def endsWithStr (suffix : String) (l : List Char) : Bool := suffix.toList.isSuffixOf l

/-- `type.startsWith(p)`. -/
def startsWithStr (p : String) (l : List Char) : Bool := p.toList.isPrefixOf l

/-- The DOCX media type assigned in the docx branch. -/
def docxMime : List Char :=
  "application/vnd.openxmlformats-officedocument.wordprocessingml.document".toList

/-- One file's normalization (page.tsx, the `files.map` body): dispatch on
`.docx`, `.pdf`, then text-like (`type.startsWith('text/')` or a `.log` /
`.txt` / `.csv` name, with `file.type || 'text/plain'` as media type); any
other file maps to `null`. -/
def normalizeFile (exDocx exPdf exText : JFile → List Char) (f : JFile) :
    Option FragmentC :=
  if endsWithStr ".docx" f.name then some ⟨f.name, docxMime, exDocx f⟩
  else if endsWithStr ".pdf" f.name then
    some ⟨f.name, "application/pdf".toList, exPdf f⟩
  else if startsWithStr "text/" f.type || endsWithStr ".log" f.name ||
      endsWithStr ".txt" f.name || endsWithStr ".csv" f.name then
    some ⟨f.name, (if f.type.isEmpty then "text/plain".toList else f.type), exText f⟩
  else none

/-- The full attachment set: normalization of every file, `null`s dropped
(`.then(attachments => attachments.filter(Boolean))`). -/
def buildAttachments (exDocx exPdf exText : JFile → List Char)
    (files : List JFile) : List FragmentC :=
  files.filterMap (normalizeFile exDocx exPdf exText)

/-- The supported kinds: DOCX, PDF, or text-like. -/
def supportedFile (f : JFile) : Bool :=
  endsWithStr ".docx" f.name || endsWithStr ".pdf" f.name ||
  startsWithStr "text/" f.type || endsWithStr ".log" f.name ||
  endsWithStr ".txt" f.name || endsWithStr ".csv" f.name

/-- A file maps to `null` exactly when it is of no supported kind. -/
theorem normalizeFile_eq_none_iff (exDocx exPdf exText : JFile → List Char)
    (f : JFile) :
    normalizeFile exDocx exPdf exText f = none ↔ supportedFile f = false := by
  rw [normalizeFile, supportedFile]
  split_ifs with h1 h2 h3
  · simp [h1]
  · simp [h1, h2]
  · simp only [Bool.not_eq_true] at h1 h2
    rcases Bool.or_eq_true_iff.mp h3 with h | h
    · rcases Bool.or_eq_true_iff.mp h with h' | h'
      · rcases Bool.or_eq_true_iff.mp h' with h'' | h''
        · simp [h1, h2, h'']
        · simp [h1, h2, h'']
      · simp [h1, h2, h']
    · simp [h1, h2, h]
  · simp only [Bool.not_eq_true, Bool.or_eq_false_iff] at h1 h2 h3
    simp [h1, h2, h3.1.1, h3.1.2, h3.2]

/-- Dropped files change nothing: the attachment set equals that of the
supported files alone, and its length counts the supported files. -/
theorem buildAttachments_filter (exDocx exPdf exText : JFile → List Char)
    (files : List JFile) :
    buildAttachments exDocx exPdf exText files =
      buildAttachments exDocx exPdf exText (files.filter supportedFile) ∧
    (buildAttachments exDocx exPdf exText files).length =
      files.countP supportedFile := by
  induction files with
  | nil => simp [buildAttachments]
  | cons f fs ih =>
    by_cases hf : supportedFile f = true
    · have hs : ∃ fr, normalizeFile exDocx exPdf exText f = some fr := by
        rcases hn : normalizeFile exDocx exPdf exText f with _ | fr
        · rw [normalizeFile_eq_none_iff] at hn
          rw [hf] at hn
          cases hn
        · exact ⟨fr, rfl⟩
      obtain ⟨fr, hfr⟩ := hs
      have ih1 := ih.1
      have ih2 := ih.2
      simp only [buildAttachments] at ih1 ih2
      have ih3 : (List.filterMap (normalizeFile exDocx exPdf exText)
          (List.filter supportedFile fs)).length = List.countP supportedFile fs := by
        rw [← ih1]
        exact ih2
      simp [buildAttachments, List.filter_cons, List.filterMap_cons, hf, hfr,
        List.countP_cons, ih1, ih2, ih3]
    · have hf' : supportedFile f = false := by simpa using hf
      have hn : normalizeFile exDocx exPdf exText f = none :=
        (normalizeFile_eq_none_iff exDocx exPdf exText f).mpr hf'
      have ih1 := ih.1
      have ih2 := ih.2
      simp only [buildAttachments] at ih1 ih2
      have ih3 : (List.filterMap (normalizeFile exDocx exPdf exText)
          (List.filter supportedFile fs)).length = List.countP supportedFile fs := by
        rw [← ih1]
        exact ih2
      simp [buildAttachments, List.filter_cons, List.filterMap_cons, hf', hn,
        List.countP_cons, ih1, ih2, ih3]

/-- Claim C9: a file of unsupported type is silently excluded — it maps to
`null`, the resulting attachment set is unchanged by dropping all
unsupported files, and its size counts exactly the supported files. -/
theorem c9_unsupported_excluded (exDocx exPdf exText : JFile → List Char)
    (files : List JFile) (f : JFile) (hu : supportedFile f = false) :
    normalizeFile exDocx exPdf exText f = none ∧
    buildAttachments exDocx exPdf exText files =
      buildAttachments exDocx exPdf exText (files.filter supportedFile) ∧
    (buildAttachments exDocx exPdf exText files).length =
      files.countP supportedFile :=
  ⟨(normalizeFile_eq_none_iff exDocx exPdf exText f).mpr hu,
   (buildAttachments_filter exDocx exPdf exText files).1,
   (buildAttachments_filter exDocx exPdf exText files).2⟩

/-- A trivial extractor for witnesses. -/
def wExtract : JFile → List Char := fun _ => []

/-- Three concrete uploads: a log, an unsupported binary, and a text file. -/
def wFiles : List JFile :=
  [⟨"auth.log".toList, []⟩, ⟨"payload.bin".toList, "application/zip".toList⟩,
   ⟨"notes.txt".toList, "text/plain".toList⟩]

/-- The unsupported binary among the three uploads. -/
def wBadFile : JFile := ⟨"payload.bin".toList, "application/zip".toList⟩

/-- Witness for C9 at the three concrete uploads: the binary maps to `null`
and the attachment set counts only the two supported files. -/
theorem c9_unsupported_excluded_witness :
    normalizeFile wExtract wExtract wExtract wBadFile = none ∧
    buildAttachments wExtract wExtract wExtract wFiles =
      buildAttachments wExtract wExtract wExtract (wFiles.filter supportedFile) ∧
    (buildAttachments wExtract wExtract wExtract wFiles).length =
      wFiles.countP supportedFile :=
  c9_unsupported_excluded wExtract wExtract wExtract wFiles wBadFile (by decide)

end IncidentAnalyzer
